import Mathlib

/-!
Shallow embedding of the news-scraper engine (scraper module plus its
aggregation entry point scrapeNews) and proofs about it.

Strings are modelled as lists of characters.  The external collaborators of
the engine (the HTTP client axios, the HTML parser cheerio, the URL library
and the clock) are modelled as explicit capabilities: a record of functions
from which every fetched page is read, so that a run of the engine is a pure
function of its inputs and that capability record.
-/

abbrev Str := List Char

/-- String literal helper: a Lean string literal as a list of characters. -/
def str (s : String) : Str := s.toList

/-- Model of String.prototype.toLowerCase (per character lowering). -/
def jsToLower (s : Str) : Str := s.map Char.toLower

/-- Characters removed by String.prototype.trim (ASCII whitespace suffices here). -/
def jsWhitespace (c : Char) : Bool := c = ' ' || c = '\t' || c = '\n' || c = '\r'

/-- Model of String.prototype.trim. -/
def jsTrim (s : Str) : Str :=
  ((s.dropWhile jsWhitespace).reverse.dropWhile jsWhitespace).reverse

/-- Model of String.prototype.includes: pat occurs as a contiguous substring of s. -/
def strContains (s pat : Str) : Bool := s.tails.any (fun t => pat.isPrefixOf t)

/-- JS expression v || d where v is a string attribute that may be undefined:
undefined and the empty string are falsy, any other string is kept. -/
def jsOr (v : Option Str) (d : Str) : Str :=
  match v with
  | some s => if s = [] then d else s
  | none => d

/-- JS expression v || d where v is a plain string: the empty string is falsy. -/
def jsOrS (v : Str) (d : Str) : Str := if v = [] then d else v

/-- The record shape produced by the engine.  link is an Option because the
Hacker News adapter stores the raw attr result, which can be undefined; every
other construction site stores a genuine string.  content and error are the
two optional keys of the data model. -/
structure ArticleRecord where
  title : Str
  link : Option Str
  author : Str
  publicationDate : Str
  source : Str
  content : Option Str := none
  error : Option Str := none
deriving DecidableEq

/-- Errors a statement of the scraper can throw. -/
inductive JsErr where
  /-- reading an identifier that no visible scope declares -/
  | referenceError (ident : Str)
  /-- reading a let/const binding before its initializer ran (temporal dead zone) -/
  | tdzError (ident : Str)
  /-- thrown by new URL on a malformed url -/
  | typeError (msg : Str)
  /-- an axios rejection: network error, timeout or bad status -/
  | fetchError (msg : Str)
deriving DecidableEq

/-- The err.message string read by the recovery paths. -/
def JsErr.message : JsErr → Str
  | .referenceError x => x ++ str " is not defined"
  | .tdzError x => str "Cannot access " ++ x ++ str " before initialization"
  | .typeError m => m
  | .fetchError m => m

deriving instance DecidableEq for Except

/-! ### Name resolution model for scrapeArticleDetails

The body of scrapeArticleDetails is the one place where the program reads
identifiers that are not initialized (or not declared at all), so name lookup
is modelled explicitly for it: a scope is a list of bindings, each either
already initialized or hoisted-but-uninitialized (the temporal dead zone of a
let/const declared further down the same block). -/

inductive ScopeEntry where
  | uninitialized
  | initialized
deriving DecidableEq

/-- Read an identifier through a stack of scopes, innermost first, exactly as
JS name resolution does: a binding in its temporal dead zone throws, and a
name found in no scope throws. -/
def readIdent (scopes : List (List (Str × ScopeEntry))) (x : Str) : Except JsErr Unit :=
  match scopes with
  | [] => Except.error (JsErr.referenceError x)
  | sc :: rest =>
    match sc.lookup x with
    | some ScopeEntry.initialized => Except.ok ()
    | some ScopeEntry.uninitialized => Except.error (JsErr.tdzError x)
    | none => readIdent rest x

/-- Function scope of scrapeArticleDetails: its three parameters. -/
def sadParams : List (Str × ScopeEntry) :=
  [(str "articleUrl", ScopeEntry.initialized), (str "fallbackTitle", ScopeEntry.initialized),
   (str "siteName", ScopeEntry.initialized)]

/-- Block scope of the try block of scrapeArticleDetails at the moment its
first statement runs: every const/let declared anywhere in that block
(articleBody, the destructured articleHtml, the cheerio handle, and the four
field consts) is hoisted to the top of the block but still uninitialized. -/
def sadTryScope : List (Str × ScopeEntry) :=
  [(str "articleBody", ScopeEntry.uninitialized), (str "articleHtml", ScopeEntry.uninitialized),
   (str "$", ScopeEntry.uninitialized), (str "title", ScopeEntry.uninitialized),
   (str "author", ScopeEntry.uninitialized), (str "publicationDate", ScopeEntry.uninitialized),
   (str "source", ScopeEntry.uninitialized)]

/-- Scope introduced by catch (error): only the catch binding.  The try block
bindings are block scoped and not visible here. -/
def sadCatchScope : List (Str × ScopeEntry) :=
  [(str "error", ScopeEntry.initialized)]

/-- The try block of scrapeArticleDetails.  Its first statement is
  let articleBody = $(... selectors ...).text().trim() || $("p").text().trim();
which evaluates the identifier dollar before the later statement
  const $ = cheerio.load(articleHtml);
initialized it, so the very first read throws and nothing after it (the
axios.get, the cheerio.load, the whole fallback-chain extraction and the
final return) ever runs; the tail below is therefore unreachable. -/
def scrapeArticleDetailsTry : Except JsErr ArticleRecord := do
  let _ ← readIdent [sadTryScope, sadParams] (str "$")
  Except.error (JsErr.referenceError (str "unreachable"))

/-- Model of scrapeArticleDetails(articleUrl, fallbackTitle, siteName).  The
try block throws (see scrapeArticleDetailsTry); the catch block then builds
  { title: title.trim(), ... }
whose first evaluation step reads the identifier title, which neither the
catch scope nor the function scope declares, so the handler itself throws a
ReferenceError and the caller observes a rejection, never a record. -/
def scrapeArticleDetails (articleUrl fallbackTitle siteName : Str) : Except JsErr ArticleRecord :=
  match scrapeArticleDetailsTry with
  | Except.ok r => Except.ok r
  | Except.error _ =>
    match readIdent [sadCatchScope, sadParams] (str "title") with
    | Except.ok _ => Except.error (JsErr.referenceError (str "unreachable"))
    | Except.error e => Except.error e

theorem scrapeArticleDetails_throws (articleUrl fallbackTitle siteName : Str) :
    scrapeArticleDetails articleUrl fallbackTitle siteName
      = Except.error (JsErr.referenceError (str "title")) := by
  rfl

/-! ### URL classifier -/

/-- Pieces of a successfully parsed URL (new URL(u)) that the engine reads. -/
structure UrlParts where
  pathname : Str
  hostname : Str
  origin : Str
deriving DecidableEq

/-- The 12-character shape /202d/dd/dd/ matched by the year-dated regex. -/
def datedPat (y m1 m2 d1 d2 : Char) : Str :=
  ['/', '2', '0', '2', y, '/', m1, m2, '/', d1, d2, '/']

/-- Does the regex /\/202\d\/\d{2}\/\d{2}\// match at the head of t? -/
def datedAt (t : Str) : Bool :=
  match t with
  | a :: b :: c :: d :: y :: e :: m1 :: m2 :: f :: d1 :: d2 :: g :: _ =>
    a == '/' && b == '2' && c == '0' && d == '2' && y.isDigit && e == '/'
      && m1.isDigit && m2.isDigit && f == '/' && d1.isDigit && d2.isDigit && g == '/'
  | _ => false

/-- pathname.match(/\/202\d\/\d{2}\/\d{2}\//): the pattern matches somewhere. -/
def hasDated (s : Str) : Bool := s.tails.any datedAt

/-- The fixed word alternation of the third pattern. -/
def vocab : List Str :=
  [str "news", str "story", str "article", str "post", str "politics",
   str "tech", str "business"]

/-- pathname.match(/\/(news|story|article|post|politics|tech|business)\//i):
case-insensitively, some slash-delimited vocabulary word occurs, with the
closing slash required by the regex. -/
def hasVocabSeg (pathname : Str) : Bool :=
  vocab.any (fun w => strContains (jsToLower pathname) ('/' :: w ++ ['/']))

/-- isLikelyArticleUrl.  The source receives the full url and tests
new URL(url).pathname; the callers below parse first (parsing is the
deterministic capability Env.parseUrl) and pass the pathname in. -/
def isLikelyArticleUrl (pathname : Str) : Bool :=
  strContains pathname (str "/articles/") || hasDated pathname || hasVocabSeg pathname

/-! ### Parsed documents, as seen through the cheerio queries the engine makes

cheerio is an external collaborator: a parsed page is modelled by the answers
it gives to exactly the queries the engine performs on it. -/

/-- An anchor element on a listing page: its href attribute (undefined when
absent) and its text content (before trimming). -/
structure Anchor where
  href : Option Str
  text : Str
deriving DecidableEq

/-- A listing page parsed by cheerio, seen through selector lookup: for each
selector string, the matched anchors in document order. -/
def ListingDoc : Type := Str → List Anchor

/-- An article page of the BBC/Verge/CNN adapters, seen through the meta-tag
attr("content") reads those adapters perform (undefined when the tag or its
content attribute is absent). -/
structure MetaDoc where
  ogTitle : Option Str
  byl : Option Str
  metaAuthor : Option Str
  published : Option Str
  ogSiteName : Option Str
deriving DecidableEq

/-- One .athing row of the Hacker News front page, together with the queries
the adapter runs against it and its .subtext sibling: find(".titleline a")
text and href, and the .hnuser and .age texts (the empty string when the
selection is empty, undefined href when there is no anchor). -/
structure HNItem where
  titleText : Str
  titleHref : Option Str
  hnuser : Str
  age : Str
deriving DecidableEq

/-- The capability record: the URL library, the clock-free part of the JS
runtime, and axios.get composed with cheerio.load for every page the engine
can request, keyed the way each consumer reads the result. -/
structure Env where
  /-- new URL(u): none models the TypeError throw on a malformed url -/
  parseUrl : Str → Option UrlParts
  /-- new URL(href, baseUrl).href -/
  resolve : Str → Str → Str
  /-- new URL(link, url).hostname -/
  resolveHost : Str → Str → Str
  /-- fetch and parse of the dynamic-path listing page -/
  dynListing : Str → Except JsErr ListingDoc
  /-- fetch and parse of the BBC listing page: hrefs of a.gs-c-promo-heading -/
  bbcHome : Except JsErr (List (Option Str))
  /-- fetch and parse of the Verge listing page: hrefs of the article anchors -/
  vergeHome : Except JsErr (List (Option Str))
  /-- fetch and parse of the CNN listing page: hrefs of the /202-prefixed anchors -/
  cnnHome : Except JsErr (List (Option Str))
  /-- fetch and parse of the Hacker News front page: its .athing rows -/
  hnHome : Except JsErr (List HNItem)
  /-- fetch and parse of an adapter article page, by url -/
  adapterArticle : Str → Except JsErr MetaDoc

/-! ### Link discovery (the listing branch of scrapeDynamicSite) -/

/-- The fixed ordered selector list of the dynamic path. -/
def linkSelectors : List Str :=
  [str "a[href*=\"/article\"]", str "a[href*=\"/news\"]", str "a[href*=\"/story\"]",
   str "a[href*=\"/202\"]", str "article a", str "h2 a", str "h3 a", str ".headline a"]

/-- A discovered candidate: the resolved url and the anchor text stored with
it (the JSON.stringify pair put into the foundLinks set). -/
structure LinkObj where
  url : Str
  title : Str
deriving DecidableEq

/-- The filter of the each callback: truthy href, trimmed text longer than 10
characters, no "tag" and no "mailto" anywhere in the raw href. -/
abbrev keepHref (href text : Str) : Prop :=
  href ≠ [] ∧ 10 < text.length ∧ strContains href (str "tag") = false
    ∧ strContains href (str "mailto") = false

/-- The stored candidate: the href resolved against baseUrl unless it is
already absolute, paired with the trimmed anchor text. -/
def candidateOf (resolve : Str → Str → Str) (baseUrl href text : Str) : LinkObj :=
  ⟨if (str "http").isPrefixOf href then href else resolve href baseUrl, text⟩

/-- One iteration of the each callback: stop growing at 10 kept candidates,
apply the keepHref filter, and add the resolved candidate to the set (a
duplicate (url, text) pair stringifies identically and is dropped; insertion
order is preserved).  The url resolution is pure, so hoisting it into
candidateOf does not change the kept value. -/
def stepEl (resolve : Str → Str → Str) (baseUrl : Str) (found : List LinkObj)
    (a : Anchor) : List LinkObj :=
  if 10 ≤ found.length then found
  else
    match a.href with
    | none => found
    | some href =>
      if keepHref href (jsTrim a.text) then
        if candidateOf resolve baseUrl href (jsTrim a.text) ∈ found then found
        else found ++ [candidateOf resolve baseUrl href (jsTrim a.text)]
      else found

/-- The foundLinks set after all eight selectors ran, as an insertion-ordered
duplicate-free list. -/
def foundLinks (doc : ListingDoc) (resolve : Str → Str → Str) (baseUrl : Str) : List LinkObj :=
  linkSelectors.foldl (fun acc sel => (doc sel).foldl (stepEl resolve baseUrl) acc) []

/-- Array.from(foundLinks).slice(0, 8) mapped back through JSON.parse. -/
def linkObjects (doc : ListingDoc) (resolve : Str → Str → Str) (baseUrl : Str) : List LinkObj :=
  (foundLinks doc resolve baseUrl).take 8

/-! ### scrapeDynamicSite -/

/-- The recovery record pushed when a per-candidate scrapeArticleDetails call
rejects. -/
def degradedRecord (lo : LinkObj) (siteName : Str) : ArticleRecord :=
  { title := lo.title, link := some lo.url, author := str "Unknown",
    publicationDate := str "Unknown", source := siteName }

/-- The synthetic record returned by the outer catch of scrapeDynamicSite;
now is the new Date().toISOString() read of the clock at that moment. -/
def errorRecord (url now : Str) (e : JsErr) : ArticleRecord :=
  { title := str "Error scraping " ++ url, link := some url, author := str "System",
    publicationDate := now, source := str "Error", error := some e.message }

/-- new URL(url) as a throwing computation. -/
def parseUrlExcept (env : Env) (url : Str) : Except JsErr UrlParts :=
  match env.parseUrl url with
  | some pu => Except.ok pu
  | none => Except.error (JsErr.typeError (str "Invalid URL"))

/-- The try block of scrapeDynamicSite: parse the url (both hostname and,
later, origin reads parse the same string deterministically), classify, then
either scrape one article directly or fetch the listing page, discover links
and scrape each candidate with a per-candidate catch. -/
def scrapeDynamicSiteTry (env : Env) (url : Str) : Except JsErr (List ArticleRecord) := do
  let pu ← parseUrlExcept env url
  let siteName := pu.hostname
  if isLikelyArticleUrl pu.pathname then do
    let article ← scrapeArticleDetails url (str "Single Article") siteName
    pure [article]
  else do
    let doc ← env.dynListing url
    let baseUrl := pu.origin
    let los := linkObjects doc env.resolve baseUrl
    pure (los.map fun lo =>
      match scrapeArticleDetails lo.url lo.title siteName with
      | Except.ok a => a
      | Except.error _ => degradedRecord lo siteName)

/-- scrapeDynamicSite(url): the try block above with its outer catch, which
turns any thrown error into the single synthetic error record. -/
def scrapeDynamicSite (env : Env) (now : Str) (url : Str) : List ArticleRecord :=
  match scrapeDynamicSiteTry env url with
  | Except.ok res => res
  | Except.error err => [errorRecord url now err]

/-! ### The four site adapters -/

/-- BBC keeps a link only if it has no "/live/" and no "#" in it. -/
def bbcFilter (link : Str) : Bool :=
  !(strContains link (str "/live/")) && !(strContains link (str "#"))

/-- The link-collection loop shared in shape by BBC/Verge/CNN: truthy href,
adapter-specific keep filter, stop at 5, resolve against the site prefix
unless absolute, dedupe by resolved url. -/
def adapterCollectLinks (keep : Str → Bool) (sitePrefix : Str)
    (hrefs : List (Option Str)) : List Str :=
  hrefs.foldl (fun acc h =>
    match h with
    | none => acc
    | some link =>
      if link ≠ [] ∧ keep link = true ∧ acc.length < 5 then
        let fullUrl := if (str "http").isPrefixOf link then link else sitePrefix ++ link
        if fullUrl ∈ acc then acc else acc ++ [fullUrl]
      else acc) []

/-- The sequential per-article loop of BBC/Verge/CNN: fetch each candidate;
on rejection the link is logged and skipped, never surfaced. -/
def adapterFetchLoop (env : Env) (mk : Str → MetaDoc → ArticleRecord)
    (links : List Str) : List ArticleRecord :=
  links.foldl (fun acc link =>
    match env.adapterArticle link with
    | Except.ok d => acc ++ [mk link d]
    | Except.error _ => acc) []

/-- Field extraction of the BBC adapter. -/
def bbcArticle (link : Str) (d : MetaDoc) : ArticleRecord :=
  { title := jsOr d.ogTitle (str "No title"), link := some link,
    author := jsOr d.byl (str "BBC News"),
    publicationDate := jsOr d.published (str "Unknown"),
    source := jsOr d.ogSiteName (str "BBC News") }

/-- scrapeBBC: note there is no try/catch around the listing-page fetch, so a
rejection of env.bbcHome propagates to the caller. -/
def scrapeBBC (env : Env) : Except JsErr (List ArticleRecord) := do
  let hrefs ← env.bbcHome
  pure (adapterFetchLoop env bbcArticle
    (adapterCollectLinks bbcFilter (str "https://www.bbc.com") hrefs))

/-- Field extraction of the Verge adapter. -/
def vergeArticle (link : Str) (d : MetaDoc) : ArticleRecord :=
  { title := jsOr d.ogTitle (str "No title"), link := some link,
    author := jsOr d.metaAuthor (str "Unknown"),
    publicationDate := jsOr d.published (str "Unknown"),
    source := jsOr d.ogSiteName (str "The Verge") }

/-- scrapeVerge: like scrapeBBC, the listing fetch is unguarded. -/
def scrapeVerge (env : Env) : Except JsErr (List ArticleRecord) := do
  let hrefs ← env.vergeHome
  pure (adapterFetchLoop env vergeArticle
    (adapterCollectLinks (fun _ => true) (str "https://www.theverge.com") hrefs))

/-- Field extraction of the CNN adapter. -/
def cnnArticle (link : Str) (d : MetaDoc) : ArticleRecord :=
  { title := jsOr d.ogTitle (str "No title"), link := some link,
    author := jsOr d.metaAuthor (str "CNN"),
    publicationDate := jsOr d.published (str "Unknown"),
    source := jsOr d.ogSiteName (str "CNN") }

/-- scrapeCNN: like scrapeBBC, the listing fetch is unguarded. -/
def scrapeCNN (env : Env) : Except JsErr (List ArticleRecord) := do
  let hrefs ← env.cnnHome
  pure (adapterFetchLoop env cnnArticle
    (adapterCollectLinks (fun _ => true) (str "https://edition.cnn.com") hrefs))

/-- The Hacker News front page url the hostnames are resolved against. -/
def hnUrl : Str := str "https://news.ycombinator.com/"

/-- One Hacker News record: the title text is stored with no fallback, the
raw (possibly undefined) href is stored as the link, author and age fall back
to "Unknown", and the source is the resolved hostname when the link is truthy. -/
def hnRecord (env : Env) (it : HNItem) : ArticleRecord :=
  let site := match it.titleHref with
    | some l => if l = [] then str "Unknown" else env.resolveHost l hnUrl
    | none => str "Unknown"
  { title := it.titleText, link := it.titleHref,
    author := jsOrS it.hnuser (str "Unknown"),
    publicationDate := jsOrS it.age (str "Unknown"),
    source := site }

/-- scrapeHackerNews: map every row, then news.slice(0, 5).  The listing
fetch is unguarded here too. -/
def scrapeHackerNews (env : Env) : Except JsErr (List ArticleRecord) := do
  let items ← env.hnHome
  pure ((items.map (hnRecord env)).take 5)

/-! ### Aggregation: filtering, sorting, scrapeNews -/

/-- The keyword predicate of the backend filter, applied to the lowercased
keyword k: a case-insensitive substring match on title, author or source. -/
def kfPred (k : Str) (a : ArticleRecord) : Bool :=
  strContains (jsToLower a.title) k || strContains (jsToLower a.author) k
    || strContains (jsToLower a.source) k

/-- Keyword filtering: skipped entirely when the keyword is falsy. -/
def keywordFilter (keyword : Str) (l : List ArticleRecord) : List ArticleRecord :=
  if keyword = [] then l else l.filter (kfPred (jsToLower keyword))

/-- The date comparator passed to sort: unparseable a sorts after, unparseable
b sorts before, otherwise the signed difference dateB - dateA.  parseDate is
the Date-library capability (new Date(s).getTime(), none for NaN). -/
def dateCmp (parseDate : Str → Option Int) (a b : ArticleRecord) : Int :=
  match parseDate a.publicationDate with
  | none => 1
  | some ta =>
    match parseDate b.publicationDate with
    | none => -1
    | some tb => tb - ta

/-- The relevance comparator passed to sort. -/
def relevanceCmp (keyword : Str) (a b : ArticleRecord) : Int :=
  let k := jsToLower keyword
  let aHas := strContains (jsToLower a.title) k
  let bHas := strContains (jsToLower b.title) k
  if aHas = true ∧ bHas = false then -1
  else if aHas = false ∧ bHas = true then 1
  else 0

/-- Stable insertion of x into an already-processed list: x goes immediately
before the first element y with cmp x y < 0, as the binary-insertion pass of
the runtime places it. -/
def jsInsert (cmp : ArticleRecord → ArticleRecord → Int) (x : ArticleRecord) :
    List ArticleRecord → List ArticleRecord
  | [] => [x]
  | y :: ys => if cmp x y < 0 then x :: y :: ys else y :: jsInsert cmp x ys

/-- Array.prototype.sort(cmp) as the engine observes it: the arrays this
program sorts have at most 20 elements, far below the TimSort run threshold,
so the runtime performs exactly one stable binary-insertion pass, which this
left fold of stable insertions models. -/
def jsSort (cmp : ArticleRecord → ArticleRecord → Int)
    (l : List ArticleRecord) : List ArticleRecord :=
  l.foldl (fun acc x => jsInsert cmp x acc) []

/-- The sort step of scrapeNews: by date, by relevance (only with a truthy
keyword), otherwise no reordering. -/
def sortStep (parseDate : Str → Option Int) (keyword sortBy : Str)
    (l : List ArticleRecord) : List ArticleRecord :=
  if sortBy = str "date" then jsSort (dateCmp parseDate) l
  else if sortBy = str "relevance" ∧ keyword ≠ [] then jsSort (relevanceCmp keyword) l
  else l

/-- scrapeNews(targetUrl, keyword, sortBy): dynamic path for a truthy
targetUrl, otherwise the four adapters via Promise.all (whose rejection, if
any adapter rejects, is the rejection of scrapeNews itself), concatenated in
the fixed order BBC, Verge, CNN, Hacker News; then filter, then sort.  now is
the clock reading used by the dynamic-path recovery record. -/
def scrapeNews (env : Env) (parseDate : Str → Option Int) (now : Str)
    (targetUrl keyword sortBy : Str) : Except JsErr (List ArticleRecord) := do
  let allArticles ←
    if targetUrl ≠ [] then
      Except.ok (scrapeDynamicSite env now targetUrl)
    else do
      let bbc ← scrapeBBC env
      let verge ← scrapeVerge env
      let cnn ← scrapeCNN env
      let hacker ← scrapeHackerNews env
      Except.ok (bbc ++ verge ++ cnn ++ hacker)
  Except.ok (sortStep parseDate keyword sortBy (keywordFilter keyword allArticles))

/-! ### Substring and regex characterizations -/

theorem strContains_iff (s pat : Str) : strContains s pat = true ↔ pat <:+: s := by
  unfold strContains
  rw [List.any_eq_true]
  constructor
  · rintro ⟨t, ht, hp⟩
    rw [List.mem_tails] at ht
    rw [ List.isPrefixOf_iff_prefix] at hp
    exact List.infix_iff_prefix_suffix.mpr ⟨t, hp, ht⟩
  · intro h
    rcases List.infix_iff_prefix_suffix.mp h with ⟨t, hp, ht⟩
    exact ⟨t, (List.mem_tails _ _).mpr ht, List.isPrefixOf_iff_prefix.mpr hp⟩

theorem datedAt_iff (t : Str) :
    datedAt t = true ↔ ∃ y m1 m2 d1 d2 rest,
      (y.isDigit = true ∧ m1.isDigit = true ∧ m2.isDigit = true
        ∧ d1.isDigit = true ∧ d2.isDigit = true)
      ∧ t = datedPat y m1 m2 d1 d2 ++ rest := by
  constructor
  · intro h
    unfold datedAt at h
    split at h
    · rename_i a b c d y e m1 m2 f d1 d2 g tail
      simp only [Bool.and_eq_true, beq_iff_eq] at h
      obtain ⟨⟨⟨⟨⟨⟨⟨⟨⟨⟨⟨ha, hb⟩, hc⟩, hd⟩, hy⟩, he⟩, hm1⟩, hm2⟩, hf⟩, hd1⟩, hd2⟩, hg⟩ := h
      subst ha hb hc hd he hf hg
      exact ⟨y, m1, m2, d1, d2, tail, ⟨hy, hm1, hm2, hd1, hd2⟩, by simp [datedPat]⟩
    · simp at h
  · rintro ⟨y, m1, m2, d1, d2, rest, ⟨hy, hm1, hm2, hd1, hd2⟩, ht⟩
    subst ht
    simp [datedAt, datedPat, hy, hm1, hm2, hd1, hd2]

theorem hasDated_iff (s : Str) :
    hasDated s = true ↔ ∃ y m1 m2 d1 d2,
      (y.isDigit = true ∧ m1.isDigit = true ∧ m2.isDigit = true
        ∧ d1.isDigit = true ∧ d2.isDigit = true)
      ∧ datedPat y m1 m2 d1 d2 <:+: s := by
  unfold hasDated
  rw [List.any_eq_true]
  constructor
  · rintro ⟨t, ht, hdt⟩
    rw [List.mem_tails] at ht
    rcases (datedAt_iff t).mp hdt with ⟨y, m1, m2, d1, d2, rest, hdig, hteq⟩
    refine ⟨y, m1, m2, d1, d2, hdig, ?_⟩
    rw [List.infix_iff_prefix_suffix]
    refine ⟨t, ?_, ht⟩
    rw [hteq]
    exact List.prefix_append _ _
  · rintro ⟨y, m1, m2, d1, d2, hdig, hinf⟩
    rcases List.infix_iff_prefix_suffix.mp hinf with ⟨t, hp, hsuf⟩
    rcases hp with ⟨rest, hrest⟩
    exact ⟨t, (List.mem_tails _ _).mpr hsuf,
      (datedAt_iff t).mpr ⟨y, m1, m2, d1, d2, rest, hdig, hrest.symm⟩⟩

theorem hasVocabSeg_iff (s : Str) :
    hasVocabSeg s = true ↔ ∃ w, w ∈ vocab ∧ ('/' :: w ++ ['/']) <:+: jsToLower s := by
  unfold hasVocabSeg
  rw [List.any_eq_true]
  constructor
  · rintro ⟨w, hw, hc⟩
    exact ⟨w, hw, (strContains_iff _ _).mp hc⟩
  · rintro ⟨w, hw, hc⟩
    exact ⟨w, hw, (strContains_iff _ _).mpr hc⟩

/-! ### C5: the URL classifier, claim side and code side -/

/-- Split a path on slashes, as the segment reading of the C5 claim does. -/
def splitSegs : Str → List Str
  | [] => [[]]
  | c :: rest =>
    if c = '/' then [] :: splitSegs rest
    else
      match splitSegs rest with
      | [] => [[c]]
      | seg :: segs => (c :: seg) :: segs

/-- Dated-path shape as the claim states it: /20YY/MM/DD/ for any year
2000-2099 (both year digits free), matching at the head of t. -/
def specDatedAt (t : Str) : Bool :=
  match t with
  | a :: b :: c :: y1 :: y2 :: e :: m1 :: m2 :: f :: d1 :: d2 :: g :: _ =>
    a == '/' && b == '2' && c == '0' && y1.isDigit && y2.isDigit && e == '/'
      && m1.isDigit && m2.isDigit && f == '/' && d1.isDigit && d2.isDigit && g == '/'
  | _ => false

/-- The classifier the C5 claim describes, following its words: an /articles/
occurrence, or a dated path /20YY/MM/DD/ for ANY year 2000-2099, or some path
segment equal case-insensitively to a vocabulary word (segment equality, with
no requirement of a closing slash after the segment). -/
def specArticleLike (pathname : Str) : Bool :=
  strContains pathname (str "/articles/")
  || pathname.tails.any specDatedAt
  || (splitSegs pathname).any (fun seg => vocab.contains (jsToLower seg))

/-- C5 counterexample: the code regex only accepts years 2020-2029 and only
accepts a vocabulary segment followed by a further slash, so the year-2019
dated path and the trailing tech segment are ArticleLike under the claim but
ListingLike under isLikelyArticleUrl. -/
theorem c5_classifier_counterexample :
    specArticleLike (str "/2019/05/01/story") = true
    ∧ isLikelyArticleUrl (str "/2019/05/01/story") = false
    ∧ specArticleLike (str "/section/tech") = true
    ∧ isLikelyArticleUrl (str "/section/tech") = false := by
  refine ⟨by decide, by decide, by decide, by decide⟩

/-- C5 amended: the classifier is a pure function of the path that declares
ArticleLike exactly when the path contains /articles/, or contains a dated
substring /202Y/MM/DD/ (years 2020-2099 restricted to 2020-2029, closing
slash included), or contains a slash-terminated segment equal
case-insensitively to a vocabulary word; every other path is ListingLike. -/
theorem c5_classifier_characterization (p : Str) :
    isLikelyArticleUrl p = true ↔
      ((str "/articles/") <:+: p
      ∨ (∃ y m1 m2 d1 d2, (y.isDigit = true ∧ m1.isDigit = true ∧ m2.isDigit = true
            ∧ d1.isDigit = true ∧ d2.isDigit = true) ∧ datedPat y m1 m2 d1 d2 <:+: p)
      ∨ (∃ w, w ∈ vocab ∧ ('/' :: w ++ ['/']) <:+: jsToLower p)) := by
  unfold isLikelyArticleUrl
  simp only [Bool.or_eq_true]
  rw [strContains_iff, hasDated_iff, hasVocabSeg_iff]
  exact or_assoc

/-- C2: for every input, scrapeArticleDetails rejects and never returns a
record: its try block reads the identifier dollar inside the temporal dead
zone of the const declared later in the same block, and its catch handler
reads the undeclared identifier title, so the handler itself throws; the
content-carrying recovery record of the catch branch is never produced. -/
theorem c2_scrape_article_details_always_rejects
    (articleUrl fallbackTitle siteName : Str) :
    scrapeArticleDetailsTry = Except.error (JsErr.tdzError (str "$"))
    ∧ scrapeArticleDetails articleUrl fallbackTitle siteName
        = Except.error (JsErr.referenceError (str "title")) :=
  ⟨rfl, scrapeArticleDetails_throws articleUrl fallbackTitle siteName⟩

/-! ### The sort pass: permutation, ordering, stability lemmas -/

theorem jsInsert_perm (cmp : ArticleRecord → ArticleRecord → Int)
    (x : ArticleRecord) (l : List ArticleRecord) :
    (jsInsert cmp x l).Perm (x :: l) := by
  induction l with
  | nil => simp [jsInsert]
  | cons y ys ih =>
    unfold jsInsert
    split
    · exact List.Perm.refl _
    · exact (ih.cons y).trans (List.Perm.swap x y ys)

theorem jsSort_perm_aux (cmp : ArticleRecord → ArticleRecord → Int)
    (l acc : List ArticleRecord) :
    (l.foldl (fun a x => jsInsert cmp x a) acc).Perm (acc ++ l) := by
  induction l generalizing acc with
  | nil => simp
  | cons x xs ih =>
    simp only [List.foldl_cons]
    refine (ih (jsInsert cmp x acc)).trans ?_
    refine (List.Perm.append_right xs (jsInsert_perm cmp x acc)).trans ?_
    simpa using List.perm_middle.symm

theorem jsSort_perm (cmp : ArticleRecord → ArticleRecord → Int)
    (l : List ArticleRecord) : (jsSort cmp l).Perm l := by
  simpa using jsSort_perm_aux cmp l []

theorem jsInsert_pairwise {R : ArticleRecord → ArticleRecord → Prop}
    (cmp : ArticleRecord → ArticleRecord → Int)
    (hlt : ∀ a b, cmp a b < 0 → R a b)
    (hge : ∀ a b, 0 ≤ cmp a b → R b a)
    (htr : ∀ a b c, R a b → R b c → R a c)
    (x : ArticleRecord) (l : List ArticleRecord)
    (hl : l.Pairwise R) : (jsInsert cmp x l).Pairwise R := by
  induction l with
  | nil => simp [jsInsert]
  | cons y ys ih =>
    rw [List.pairwise_cons] at hl
    obtain ⟨hy, hys⟩ := hl
    unfold jsInsert
    split
    · rename_i hc
      refine List.pairwise_cons.mpr ⟨?_, List.pairwise_cons.mpr ⟨hy, hys⟩⟩
      intro z hz
      rcases List.mem_cons.mp hz with hzy | hz
      · rw [hzy]; exact hlt x y hc
      · exact htr x y z (hlt x y hc) (hy z hz)
    · rename_i hc
      refine List.pairwise_cons.mpr ⟨?_, ih hys⟩
      intro z hz
      rcases List.mem_cons.mp ((jsInsert_perm cmp x ys).mem_iff.mp hz) with hzx | hz
      · rw [hzx]; exact hge x y (not_lt.mp hc)
      · exact hy z hz

theorem jsSort_pairwise {R : ArticleRecord → ArticleRecord → Prop}
    (cmp : ArticleRecord → ArticleRecord → Int)
    (hlt : ∀ a b, cmp a b < 0 → R a b)
    (hge : ∀ a b, 0 ≤ cmp a b → R b a)
    (htr : ∀ a b c, R a b → R b c → R a c)
    (l : List ArticleRecord) : (jsSort cmp l).Pairwise R := by
  have aux : ∀ (xs acc : List ArticleRecord), acc.Pairwise R →
      (xs.foldl (fun a x => jsInsert cmp x a) acc).Pairwise R := by
    intro xs
    induction xs with
    | nil => intro acc h; exact h
    | cons x xs ih =>
      intro acc h
      exact ih _ (jsInsert_pairwise cmp hlt hge htr x acc h)
  exact aux l [] List.Pairwise.nil

theorem jsInsert_append_of_not_lt (cmp : ArticleRecord → ArticleRecord → Int)
    (x : ArticleRecord) (l : List ArticleRecord)
    (h : ∀ y ∈ l, ¬ cmp x y < 0) : jsInsert cmp x l = l ++ [x] := by
  induction l with
  | nil => rfl
  | cons y ys ih =>
    unfold jsInsert
    rw [if_neg (h y (List.mem_cons_self y ys)),
      ih (fun z hz => h z (List.mem_cons_of_mem y hz))]
    rfl

theorem filter_jsInsert_of_neg (cmp : ArticleRecord → ArticleRecord → Int)
    (p : ArticleRecord → Bool) (x : ArticleRecord) (l : List ArticleRecord)
    (hx : p x = false) : (jsInsert cmp x l).filter p = l.filter p := by
  induction l with
  | nil => simp [jsInsert, hx]
  | cons y ys ih =>
    unfold jsInsert
    split
    · simp [List.filter_cons, hx]
    · simp only [List.filter_cons, ih]

/-- A record whose publicationDate does not parse as a date. -/
def unparseable (pd : Str → Option Int) (a : ArticleRecord) : Bool :=
  (pd a.publicationDate).isNone

theorem jsInsert_dateCmp_unparseable (pd : Str → Option Int)
    (x : ArticleRecord) (l : List ArticleRecord)
    (hx : unparseable pd x = true) : jsInsert (dateCmp pd) x l = l ++ [x] := by
  apply jsInsert_append_of_not_lt
  intro y _
  have hnone : pd x.publicationDate = none := by
    simpa [unparseable, Option.isNone_iff_eq_none] using hx
  simp [dateCmp, hnone]

theorem filter_foldl_dateCmp (pd : Str → Option Int)
    (l acc : List ArticleRecord) :
    ((l.foldl (fun a x => jsInsert (dateCmp pd) x a) acc).filter (unparseable pd))
      = acc.filter (unparseable pd) ++ l.filter (unparseable pd) := by
  induction l generalizing acc with
  | nil => simp
  | cons x xs ih =>
    simp only [List.foldl_cons]
    rw [ih]
    by_cases hx : unparseable pd x = true
    · rw [jsInsert_dateCmp_unparseable pd x acc hx]
      simp [List.filter_append, List.filter_cons, hx, List.append_assoc]
    · have hx' : unparseable pd x = false := by simpa using hx
      rw [filter_jsInsert_of_neg _ _ _ _ hx']
      simp [List.filter_cons, hx']

/-- The order C6 claims for the date sort: b may stand after a when b is
unparseable, or when both parse and b is not newer than a. -/
def dateAfter (pd : Str → Option Int) (a b : ArticleRecord) : Prop :=
  pd b.publicationDate = none
  ∨ ∃ ta tb, pd a.publicationDate = some ta ∧ pd b.publicationDate = some tb ∧ tb ≤ ta

theorem dateCmp_lt (pd : Str → Option Int) (a b : ArticleRecord)
    (h : dateCmp pd a b < 0) : dateAfter pd a b := by
  unfold dateCmp at h
  cases ha : pd a.publicationDate with
  | none => simp [ha] at h
  | some ta =>
    cases hb : pd b.publicationDate with
    | none => exact Or.inl hb
    | some tb =>
      rw [ha, hb] at h
      simp at h
      refine Or.inr ⟨ta, tb, ha, hb, ?_⟩
      omega

theorem dateCmp_ge (pd : Str → Option Int) (a b : ArticleRecord)
    (h : 0 ≤ dateCmp pd a b) : dateAfter pd b a := by
  unfold dateCmp at h
  cases ha : pd a.publicationDate with
  | none => exact Or.inl ha
  | some ta =>
    cases hb : pd b.publicationDate with
    | none => simp [ha, hb] at h
    | some tb =>
      rw [ha, hb] at h
      simp at h
      refine Or.inr ⟨tb, ta, hb, ha, ?_⟩
      omega

theorem dateAfter_trans (pd : Str → Option Int) (a b c : ArticleRecord)
    (hab : dateAfter pd a b) (hbc : dateAfter pd b c) : dateAfter pd a c := by
  rcases hbc with hc | ⟨tb, tc, hb, hc, hcb⟩
  · exact Or.inl hc
  · rcases hab with hb' | ⟨ta, tb', ha, hb', hba⟩
    · rw [hb'] at hb; cases hb
    · rw [hb'] at hb
      injection hb with hb
      exact Or.inr ⟨ta, tc, ha, hc, le_trans hcb (hb ▸ hba)⟩

/-- C6: sorting with sortBy date permutes the records, orders them so that no
record stands before a strictly newer one and every unparseable record stands
after every parseable one, and keeps the unparseable records in their
original relative order (stability). -/
theorem c6_date_sort_descending_unparseable_last
    (pd : Str → Option Int) (keyword : Str) (l : List ArticleRecord) :
    (sortStep pd keyword (str "date") l).Perm l
    ∧ (sortStep pd keyword (str "date") l).Pairwise (dateAfter pd)
    ∧ (sortStep pd keyword (str "date") l).filter (unparseable pd)
        = l.filter (unparseable pd) := by
  have hstep : sortStep pd keyword (str "date") l = jsSort (dateCmp pd) l := by
    unfold sortStep
    rw [if_pos rfl]
  rw [hstep]
  refine ⟨jsSort_perm _ _,
    jsSort_pairwise _ (dateCmp_lt pd) (dateCmp_ge pd) (dateAfter_trans pd) l, ?_⟩
  simpa using filter_foldl_dateCmp pd l []

/-! ### C9: relevance sort is a stable partition -/

/-- Does the lowercased keyword occur in the lowercased title? -/
def hasKw (keyword : Str) (a : ArticleRecord) : Bool :=
  strContains (jsToLower a.title) (jsToLower keyword)

theorem relevanceCmp_lt_iff (keyword : Str) (x y : ArticleRecord) :
    relevanceCmp keyword x y < 0
      ↔ (hasKw keyword x = true ∧ hasKw keyword y = false) := by
  by_cases hx : strContains (jsToLower x.title) (jsToLower keyword) = true <;>
    by_cases hy : strContains (jsToLower y.title) (jsToLower keyword) = true <;>
      simp [relevanceCmp, hasKw, hx, hy]

theorem jsInsert_relevance_not (keyword : Str) (x : ArticleRecord)
    (l : List ArticleRecord) (hx : hasKw keyword x = false) :
    jsInsert (relevanceCmp keyword) x l = l ++ [x] := by
  apply jsInsert_append_of_not_lt
  intro y _
  simp [relevanceCmp_lt_iff, hx]

theorem jsInsert_relevance_has (keyword : Str) (x : ArticleRecord)
    (A B : List ArticleRecord) (hx : hasKw keyword x = true)
    (hA : ∀ a ∈ A, hasKw keyword a = true) (hB : ∀ b ∈ B, hasKw keyword b = false) :
    jsInsert (relevanceCmp keyword) x (A ++ B) = A ++ x :: B := by
  induction A with
  | nil =>
    simp only [List.nil_append]
    cases B with
    | nil => rfl
    | cons b bs =>
      unfold jsInsert
      rw [if_pos ((relevanceCmp_lt_iff keyword x b).mpr
        ⟨hx, hB b (List.mem_cons_self b bs)⟩)]
  | cons a A' ih =>
    have ha := hA a (List.mem_cons_self a A')
    have hneg : ¬ relevanceCmp keyword x a < 0 := by
      simp [relevanceCmp_lt_iff, ha]
    simp only [List.cons_append]
    unfold jsInsert
    rw [if_neg hneg, ih (fun z hz => hA z (List.mem_cons_of_mem a hz))]

theorem foldl_relevance_partition (keyword : Str) (l : List ArticleRecord) :
    ∀ A B : List ArticleRecord,
      (∀ a ∈ A, hasKw keyword a = true) → (∀ b ∈ B, hasKw keyword b = false) →
      l.foldl (fun acc x => jsInsert (relevanceCmp keyword) x acc) (A ++ B)
        = (A ++ l.filter (fun a => hasKw keyword a))
          ++ (B ++ l.filter (fun a => !(hasKw keyword a))) := by
  induction l with
  | nil => intro A B _ _; simp
  | cons x xs ih =>
    intro A B hA hB
    simp only [List.foldl_cons]
    by_cases hx : hasKw keyword x = true
    · rw [jsInsert_relevance_has keyword x A B hx hA hB]
      have hx' : ∀ a ∈ A ++ [x], hasKw keyword a = true := by
        intro a ha
        rcases List.mem_append.mp ha with ha | ha
        · exact hA a ha
        · rw [List.mem_singleton.mp ha]
          exact hx
      have e : A ++ x :: B = (A ++ [x]) ++ B := by simp
      rw [e, ih (A ++ [x]) B hx' hB]
      simp [List.filter_cons, hx, List.append_assoc]
    · have hxf : hasKw keyword x = false := by simpa using hx
      rw [jsInsert_relevance_not keyword x (A ++ B) hxf]
      have hB' : ∀ b ∈ B ++ [x], hasKw keyword b = false := by
        intro b hb
        rcases List.mem_append.mp hb with hb | hb
        · exact hB b hb
        · rw [List.mem_singleton.mp hb]
          exact hxf
      have e : (A ++ B) ++ [x] = A ++ (B ++ [x]) := by simp
      rw [e, ih A (B ++ [x]) hA hB']
      simp [List.filter_cons, hxf, List.append_assoc]

/-- C9: for every record list and non-empty keyword, the relevance sort is the
stable partition putting every record whose title contains the keyword
(case-insensitively) before every record whose title does not, keeping the
original relative order inside each part. -/
theorem c9_relevance_sort_stable_partition (pd : Str → Option Int)
    (keyword : Str) (l : List ArticleRecord) (hk : keyword ≠ []) :
    sortStep pd keyword (str "relevance") l
      = l.filter (fun a => hasKw keyword a)
        ++ l.filter (fun a => !(hasKw keyword a)) := by
  have hstep : sortStep pd keyword (str "relevance") l = jsSort (relevanceCmp keyword) l := by
    unfold sortStep
    rw [if_neg (by decide), if_pos ⟨rfl, hk⟩]
  rw [hstep]
  unfold jsSort
  simpa using foldl_relevance_partition keyword l [] []
    (by intro a ha; cases ha) (by intro b hb; cases hb)

def c9Rec1 : ArticleRecord :=
  { title := str "Markets today", link := some (str "l1"), author := str "A",
    publicationDate := str "Unknown", source := str "S" }

def c9Rec2 : ArticleRecord :=
  { title := str "AI breakthrough", link := some (str "l2"), author := str "B",
    publicationDate := str "Unknown", source := str "S" }

theorem c9_relevance_sort_witness :
    sortStep (fun _ => none) (str "ai") (str "relevance") [c9Rec1, c9Rec2]
      = [c9Rec1, c9Rec2].filter (fun a => hasKw (str "ai") a)
        ++ [c9Rec1, c9Rec2].filter (fun a => !(hasKw (str "ai") a)) :=
  c9_relevance_sort_stable_partition (fun _ => none) (str "ai") [c9Rec1, c9Rec2] (by decide)

/-! ### Small pipeline lemmas -/

theorem sortStep_nil (pd : Str → Option Int) (keyword sortBy : Str) :
    sortStep pd keyword sortBy [] = [] := by
  unfold sortStep
  split
  · rfl
  · split <;> rfl

theorem sortStep_singleton (pd : Str → Option Int) (keyword sortBy : Str)
    (r : ArticleRecord) : sortStep pd keyword sortBy [r] = [r] := by
  unfold sortStep
  split
  · rfl
  · split <;> rfl

theorem keywordFilter_empty (l : List ArticleRecord) : keywordFilter [] l = l := by
  unfold keywordFilter
  rw [if_pos rfl]

theorem sortStep_default (pd : Str → Option Int) (keyword : Str)
    (l : List ArticleRecord) : sortStep pd keyword (str "default") l = l := by
  unfold sortStep
  rw [if_neg (by decide), if_neg (by rintro ⟨h, -⟩; exact absurd h (by decide))]

theorem exceptBind_ok {α β : Type} (a : α) (f : α → Except JsErr β) :
    (Except.ok a >>= f) = f a := rfl

theorem exceptBind_error {α β : Type} (e : JsErr) (f : α → Except JsErr β) :
    ((Except.error e : Except JsErr α) >>= f) = Except.error e := rfl

/-! ### The dynamic path case lemmas -/

theorem parseUrlExcept_some (env : Env) (url : Str) (pu : UrlParts)
    (hp : env.parseUrl url = some pu) : parseUrlExcept env url = Except.ok pu := by
  unfold parseUrlExcept
  rw [hp]

theorem parseUrlExcept_none (env : Env) (url : Str)
    (hp : env.parseUrl url = none) :
    parseUrlExcept env url = Except.error (JsErr.typeError (str "Invalid URL")) := by
  unfold parseUrlExcept
  rw [hp]

theorem scrapeDynamicSiteTry_listing (env : Env) (url : Str) (pu : UrlParts)
    (doc : ListingDoc) (hp : env.parseUrl url = some pu)
    (hc : isLikelyArticleUrl pu.pathname = false)
    (hd : env.dynListing url = Except.ok doc) :
    scrapeDynamicSiteTry env url
      = Except.ok ((linkObjects doc env.resolve pu.origin).map
          (fun lo => degradedRecord lo pu.hostname)) := by
  unfold scrapeDynamicSiteTry
  rw [parseUrlExcept_some env url pu hp]
  simp only [exceptBind_ok, hc, Bool.false_eq_true, if_false, hd,
    scrapeArticleDetails_throws]
  rfl

theorem scrapeDynamicSiteTry_listing_error (env : Env) (url : Str) (pu : UrlParts)
    (e : JsErr) (hp : env.parseUrl url = some pu)
    (hc : isLikelyArticleUrl pu.pathname = false)
    (hd : env.dynListing url = Except.error e) :
    scrapeDynamicSiteTry env url = Except.error e := by
  unfold scrapeDynamicSiteTry
  rw [parseUrlExcept_some env url pu hp]
  simp only [exceptBind_ok, hc, Bool.false_eq_true, if_false, hd, exceptBind_error]

theorem scrapeDynamicSiteTry_parse_error (env : Env) (url : Str)
    (hp : env.parseUrl url = none) :
    scrapeDynamicSiteTry env url
      = Except.error (JsErr.typeError (str "Invalid URL")) := by
  unfold scrapeDynamicSiteTry
  rw [parseUrlExcept_none env url hp, exceptBind_error]

theorem scrapeNews_dynamic (env : Env) (pd : Str → Option Int)
    (now targetUrl keyword sortBy : Str) (h : targetUrl ≠ []) :
    scrapeNews env pd now targetUrl keyword sortBy
      = Except.ok (sortStep pd keyword sortBy
          (keywordFilter keyword (scrapeDynamicSite env now targetUrl))) := by
  unfold scrapeNews
  rw [if_pos h, exceptBind_ok]

/-- C7: in the dynamic listing path every candidate whose per-article
extraction fails is recovered as a degraded record (anchor text as title,
resolved url as link, Unknown author and date, hostname as source) instead of
failing the request, and the results stand in discovery order.  Since
scrapeArticleDetails rejects on every input, the output is exactly the
degraded record of every discovered candidate, in discovery order. -/
theorem c7_per_candidate_failure_degraded_records
    (env : Env) (now url : Str) (pu : UrlParts) (doc : ListingDoc)
    (hp : env.parseUrl url = some pu)
    (hc : isLikelyArticleUrl pu.pathname = false)
    (hd : env.dynListing url = Except.ok doc) :
    scrapeDynamicSite env now url
      = (linkObjects doc env.resolve pu.origin).map
          (fun lo => degradedRecord lo pu.hostname) := by
  unfold scrapeDynamicSite
  rw [scrapeDynamicSiteTry_listing env url pu doc hp hc hd]

def c7Parts : UrlParts :=
  { pathname := str "/home", hostname := str "site.com", origin := str "https://site.com" }

def c7Anchor : Anchor :=
  { href := some (str "http://site.com/a/b"), text := str " a long headline " }

def c7Doc : ListingDoc := fun sel => if sel = str "h3 a" then [c7Anchor] else []

def c7Env : Env :=
  { parseUrl := fun _ => some c7Parts, resolve := fun h _ => h,
    resolveHost := fun _ _ => [],
    dynListing := fun _ => Except.ok c7Doc,
    bbcHome := Except.ok [], vergeHome := Except.ok [], cnnHome := Except.ok [],
    hnHome := Except.ok [],
    adapterArticle := fun _ => Except.error (JsErr.fetchError []) }

theorem c7_per_candidate_failure_witness :
    scrapeDynamicSite c7Env (str "t") (str "https://site.com/home")
      = (linkObjects c7Doc c7Env.resolve c7Parts.origin).map
          (fun lo => degradedRecord lo c7Parts.hostname) :=
  c7_per_candidate_failure_degraded_records c7Env (str "t")
    (str "https://site.com/home") c7Parts c7Doc rfl (by decide) rfl

/-! ### C4: total listing failure becomes a single synthetic record -/

def c4Parts : UrlParts :=
  { pathname := str "/", hostname := str "example.com", origin := str "https://example.com" }

def c4Env : Env :=
  { parseUrl := fun u => if u = str "https://example.com/" then some c4Parts else none,
    resolve := fun h _ => h, resolveHost := fun _ _ => [],
    dynListing := fun _ => Except.error (JsErr.fetchError (str "timeout of 10000ms exceeded")),
    bbcHome := Except.ok [], vergeHome := Except.ok [], cnnHome := Except.ok [],
    hnHome := Except.ok [],
    adapterArticle := fun _ => Except.error (JsErr.fetchError []) }

/-- C4 counterexample: a non-empty targetUrl whose listing fetch fails, with
a keyword the synthetic record does not match, makes run return the empty
sequence, not exactly one error record: the keyword filter runs after the
recovery and can drop the synthetic record. -/
theorem c4_keyword_can_filter_out_error_record :
    scrapeNews c4Env (fun _ => none) (str "2024-01-01T00:00:00.000Z")
      (str "https://example.com/") (str "qqq") (str "default") = Except.ok [] := by
  decide

/-- C4 amended: when the listing-page fetch (or the url parse) of a non-empty
targetUrl fails and the keyword is empty, run returns exactly the one
synthetic record with source Error, author System, a title naming the failing
url and the error field carrying the failure message, and raises nothing; a
non-empty keyword may still filter that record out afterwards. -/
theorem c4_listing_failure_single_error_record
    (env : Env) (pd : Str → Option Int) (now url sortBy : Str) :
    (∀ pu e, url ≠ [] → env.parseUrl url = some pu →
        isLikelyArticleUrl pu.pathname = false → env.dynListing url = Except.error e →
        scrapeNews env pd now url [] sortBy
          = Except.ok [{ title := str "Error scraping " ++ url, link := some url,
                         author := str "System", publicationDate := now,
                         source := str "Error", error := some e.message }])
    ∧ (url ≠ [] → env.parseUrl url = none →
        scrapeNews env pd now url [] sortBy
          = Except.ok [{ title := str "Error scraping " ++ url, link := some url,
                         author := str "System", publicationDate := now,
                         source := str "Error",
                         error := some (str "Invalid URL") }]) := by
  constructor
  · intro pu e hu hp hc hd
    rw [scrapeNews_dynamic env pd now url [] sortBy hu]
    unfold scrapeDynamicSite
    rw [scrapeDynamicSiteTry_listing_error env url pu e hp hc hd,
      keywordFilter_empty, sortStep_singleton]
    rfl
  · intro hu hp
    rw [scrapeNews_dynamic env pd now url [] sortBy hu]
    unfold scrapeDynamicSite
    rw [scrapeDynamicSiteTry_parse_error env url hp,
      keywordFilter_empty, sortStep_singleton]
    rfl

theorem c4_listing_failure_witness :
    scrapeNews c4Env (fun _ => none) (str "2024-01-01T00:00:00.000Z")
      (str "https://example.com/") [] (str "default")
      = Except.ok [{ title := str "Error scraping " ++ str "https://example.com/",
                     link := some (str "https://example.com/"),
                     author := str "System",
                     publicationDate := str "2024-01-01T00:00:00.000Z",
                     source := str "Error",
                     error := some (str "timeout of 10000ms exceeded") }] :=
  (c4_listing_failure_single_error_record c4Env (fun _ => none)
      (str "2024-01-01T00:00:00.000Z") (str "https://example.com/") (str "default")).1
    c4Parts (JsErr.fetchError (str "timeout of 10000ms exceeded"))
    (by decide) (by decide) (by decide) rfl

/-! ### C3: the adapter fan-out -/

def c3Env : Env :=
  { parseUrl := fun _ => none, resolve := fun h _ => h, resolveHost := fun _ _ => [],
    dynListing := fun _ => Except.error (JsErr.fetchError (str "boom")),
    bbcHome := Except.error (JsErr.fetchError (str "bbc down")),
    vergeHome := Except.ok [], cnnHome := Except.ok [], hnHome := Except.ok [],
    adapterArticle := fun _ => Except.error (JsErr.fetchError []) }

/-- C3 counterexample: with an empty targetUrl and only the BBC listing fetch
rejecting, run itself rejects: the adapters do not guard their listing fetch,
so Promise.all propagates the failure out of run. -/
theorem c3_adapter_failure_fails_run :
    scrapeNews c3Env (fun _ => none) [] [] [] (str "default")
      = Except.error (JsErr.fetchError (str "bbc down")) := by
  decide

theorem scrapeNews_adapters_ok (env : Env) (pd : Str → Option Int)
    (now keyword sortBy : Str) (b v c h : List ArticleRecord)
    (hb : scrapeBBC env = Except.ok b) (hv : scrapeVerge env = Except.ok v)
    (hc : scrapeCNN env = Except.ok c) (hh : scrapeHackerNews env = Except.ok h) :
    scrapeNews env pd now [] keyword sortBy
      = Except.ok (sortStep pd keyword sortBy
          (keywordFilter keyword (b ++ v ++ c ++ h))) := by
  unfold scrapeNews
  rw [if_neg (by simp)]
  simp only [hb, hv, hc, hh, exceptBind_ok]

/-- C3 amended: with an empty targetUrl the four adapters all run and their
results are concatenated in the fixed order BBC, Verge, CNN, Hacker News; an
adapter whose listing fetch succeeds never fails (its per-article failures
are swallowed); but the total failure of any single adapter (its listing
fetch rejecting) does make run itself fail. -/
theorem c3_adapters_order_and_failure (env : Env) (pd : Str → Option Int) (now : Str) :
    (∀ b v c h, scrapeBBC env = Except.ok b → scrapeVerge env = Except.ok v →
        scrapeCNN env = Except.ok c → scrapeHackerNews env = Except.ok h →
        scrapeNews env pd now [] [] (str "default") = Except.ok (b ++ v ++ c ++ h))
    ∧ (∀ hrefs, env.bbcHome = Except.ok hrefs → ∃ b, scrapeBBC env = Except.ok b)
    ∧ (∀ e, (scrapeBBC env = Except.error e ∨ scrapeVerge env = Except.error e
          ∨ scrapeCNN env = Except.error e ∨ scrapeHackerNews env = Except.error e) →
        ∃ e2, scrapeNews env pd now [] [] (str "default") = Except.error e2) := by
  refine ⟨?_, ?_, ?_⟩
  · intro b v c h hb hv hc hh
    rw [scrapeNews_adapters_ok env pd now [] (str "default") b v c h hb hv hc hh,
      keywordFilter_empty, sortStep_default]
  · intro hrefs h
    refine ⟨adapterFetchLoop env bbcArticle
      (adapterCollectLinks bbcFilter (str "https://www.bbc.com") hrefs), ?_⟩
    unfold scrapeBBC
    rw [h, exceptBind_ok]
    rfl
  · intro e he
    unfold scrapeNews
    rw [if_neg (by simp)]
    cases hb : scrapeBBC env with
    | error eb =>
      refine ⟨eb, ?_⟩
      simp only [hb, exceptBind_error]
    | ok b =>
      cases hv : scrapeVerge env with
      | error ev =>
        refine ⟨ev, ?_⟩
        simp only [hb, hv, exceptBind_ok, exceptBind_error]
      | ok v =>
        cases hc2 : scrapeCNN env with
        | error ec =>
          refine ⟨ec, ?_⟩
          simp only [hb, hv, hc2, exceptBind_ok, exceptBind_error]
        | ok c =>
          cases hh : scrapeHackerNews env with
          | error eh =>
            refine ⟨eh, ?_⟩
            simp only [hb, hv, hc2, hh, exceptBind_ok, exceptBind_error]
          | ok h =>
            rcases he with he | he | he | he
            · rw [he] at hb; cases hb
            · rw [he] at hv; cases hv
            · rw [he] at hc2; cases hc2
            · rw [he] at hh; cases hh

def c3wEnv : Env :=
  { parseUrl := fun _ => none, resolve := fun h _ => h, resolveHost := fun _ _ => [],
    dynListing := fun _ => Except.error (JsErr.fetchError []),
    bbcHome := Except.ok [some (str "https://www.bbc.com/news/articles/x1")],
    vergeHome := Except.ok [], cnnHome := Except.ok [], hnHome := Except.ok [],
    adapterArticle := fun _ => Except.error (JsErr.fetchError (str "down")) }

theorem c3_adapters_witness :
    scrapeNews c3wEnv (fun _ => none) [] [] [] (str "default")
      = Except.ok ([] ++ [] ++ [] ++ []) :=
  (c3_adapters_order_and_failure c3wEnv (fun _ => none) []).1 [] [] [] []
    (by decide) (by decide) (by decide) (by decide)

/-! ### C8: link discovery bounds, filters and dedup -/

theorem foundLinks_eq_flatten (doc : ListingDoc) (resolve : Str → Str → Str)
    (baseUrl : Str) :
    foundLinks doc resolve baseUrl
      = ((linkSelectors.map doc).flatten).foldl (stepEl resolve baseUrl) [] := by
  have aux : ∀ (sels : List Str) (acc : List LinkObj),
      sels.foldl (fun acc sel => (doc sel).foldl (stepEl resolve baseUrl) acc) acc
        = ((sels.map doc).flatten).foldl (stepEl resolve baseUrl) acc := by
    intro sels
    induction sels with
    | nil => intro acc; rfl
    | cons s rest ih =>
      intro acc
      simp only [List.foldl_cons, List.map_cons, List.flatten_cons, List.foldl_append]
      exact ih _
  exact aux linkSelectors []

theorem stepEl_length_le (resolve : Str → Str → Str) (baseUrl : Str)
    (acc : List LinkObj) (a : Anchor) (h : acc.length ≤ 10) :
    (stepEl resolve baseUrl acc a).length ≤ 10 := by
  unfold stepEl
  split
  · exact h
  · rename_i hlen
    split
    · exact h
    · split
      · split
        · exact h
        · rw [List.length_append, List.length_singleton]
          omega
      · exact h

theorem foldl_stepEl_length_le (resolve : Str → Str → Str) (baseUrl : Str)
    (xs : List Anchor) : ∀ acc : List LinkObj, acc.length ≤ 10 →
    (xs.foldl (stepEl resolve baseUrl) acc).length ≤ 10 := by
  induction xs with
  | nil => intro acc h; exact h
  | cons x xs ih =>
    intro acc h
    exact ih _ (stepEl_length_le resolve baseUrl acc x h)

theorem foundLinks_length_le (doc : ListingDoc) (resolve : Str → Str → Str)
    (baseUrl : Str) : (foundLinks doc resolve baseUrl).length ≤ 10 := by
  rw [foundLinks_eq_flatten]
  exact foldl_stepEl_length_le resolve baseUrl _ [] (by simp)

/-- Provenance of an accepted candidate: the anchor it came from, with every
filter of the each callback satisfied and the stored fields derived from it. -/
def fromAnchor (resolve : Str → Str → Str) (baseUrl : Str)
    (a : Anchor) (lo : LinkObj) : Prop :=
  ∃ h, a.href = some h ∧ h ≠ [] ∧ strContains h (str "tag") = false
    ∧ strContains h (str "mailto") = false ∧ 10 < (jsTrim a.text).length
    ∧ lo.title = jsTrim a.text
    ∧ lo.url = if (str "http").isPrefixOf h then h else resolve h baseUrl

theorem mem_stepEl (resolve : Str → Str → Str) (baseUrl : Str)
    (acc : List LinkObj) (a : Anchor) (lo : LinkObj)
    (hmem : lo ∈ stepEl resolve baseUrl acc a) :
    lo ∈ acc ∨ fromAnchor resolve baseUrl a lo := by
  unfold stepEl at hmem
  split at hmem
  · exact Or.inl hmem
  · split at hmem
    · exact Or.inl hmem
    · rename_i href heq
      split at hmem
      · rename_i hguard
        obtain ⟨h1, h2, h3, h4⟩ := hguard
        split at hmem
        · exact Or.inl hmem
        · rcases List.mem_append.mp hmem with hmem | hmem
          · exact Or.inl hmem
          · rw [List.mem_singleton] at hmem
            subst hmem
            exact Or.inr ⟨href, heq, h1, h3, h4, h2, rfl, rfl⟩
      · exact Or.inl hmem

theorem mem_foldl_stepEl (resolve : Str → Str → Str) (baseUrl : Str)
    (xs : List Anchor) : ∀ (acc : List LinkObj) (lo : LinkObj),
    lo ∈ xs.foldl (stepEl resolve baseUrl) acc →
    lo ∈ acc ∨ ∃ a ∈ xs, fromAnchor resolve baseUrl a lo := by
  induction xs with
  | nil => intro acc lo h; exact Or.inl h
  | cons x xs ih =>
    intro acc lo h
    rcases ih _ lo h with h | ⟨a, ha, hfa⟩
    · rcases mem_stepEl resolve baseUrl acc x lo h with h | hfa
      · exact Or.inl h
      · exact Or.inr ⟨x, List.mem_cons_self x xs, hfa⟩
    · exact Or.inr ⟨a, List.mem_cons_of_mem x ha, hfa⟩

theorem stepEl_nodup (resolve : Str → Str → Str) (baseUrl : Str)
    (acc : List LinkObj) (a : Anchor) (h : acc.Nodup) :
    (stepEl resolve baseUrl acc a).Nodup := by
  unfold stepEl
  split
  · exact h
  · split
    · exact h
    · split
      · split
        · exact h
        · rename_i hnotmem
          rw [List.nodup_append]
          refine ⟨h, List.nodup_singleton _, ?_⟩
          intro z hz hz'
          rw [List.mem_singleton] at hz'
          subst hz'
          exact hnotmem hz
      · exact h

theorem foldl_stepEl_nodup (resolve : Str → Str → Str) (baseUrl : Str)
    (xs : List Anchor) : ∀ acc : List LinkObj, acc.Nodup →
    (xs.foldl (stepEl resolve baseUrl) acc).Nodup := by
  induction xs with
  | nil => intro acc h; exact h
  | cons x xs ih =>
    intro acc h
    exact ih _ (stepEl_nodup resolve baseUrl acc x h)

def c8Anchor1 : Anchor :=
  { href := some (str "http://s.com/x/one"), text := str "first headline text" }

def c8Anchor2 : Anchor :=
  { href := some (str "http://s.com/x/one"), text := str "second headline text" }

def c8Doc : ListingDoc := fun sel => if sel = str "h2 a" then [c8Anchor1, c8Anchor2] else []

/-- C8: link discovery returns at most 8 entries, accumulates at most 10
candidates before the slice to 8, every returned entry comes from an anchor
whose trimmed text is longer than 10 characters and whose raw href is truthy
and contains neither tag nor mailto (the entry carrying that text and the
resolved url), no exact (url, text) pair appears twice, and only exact pairs
are deduplicated: a concrete document linking one url under two different
texts yields two entries. -/
theorem c8_link_discovery_contract :
    (∀ (doc : ListingDoc) (resolve : Str → Str → Str) (baseUrl : Str),
      (linkObjects doc resolve baseUrl).length ≤ 8
      ∧ (foundLinks doc resolve baseUrl).length ≤ 10
      ∧ (linkObjects doc resolve baseUrl).Nodup
      ∧ (∀ lo ∈ linkObjects doc resolve baseUrl,
          10 < lo.title.length
          ∧ ∃ a ∈ (linkSelectors.map doc).flatten, fromAnchor resolve baseUrl a lo))
    ∧ linkObjects c8Doc (fun h _ => h) []
        = [{ url := str "http://s.com/x/one", title := str "first headline text" },
           { url := str "http://s.com/x/one", title := str "second headline text" }] := by
  constructor
  · intro doc resolve baseUrl
    refine ⟨?_, foundLinks_length_le doc resolve baseUrl, ?_, ?_⟩
    · unfold linkObjects
      rw [List.length_take]
      omega
    · exact (List.take_sublist 8 _).nodup
        (by rw [foundLinks_eq_flatten]
            exact foldl_stepEl_nodup resolve baseUrl _ [] List.nodup_nil)
    · intro lo hlo
      have hmem : lo ∈ foundLinks doc resolve baseUrl :=
        (List.take_sublist 8 _).subset hlo
      rw [foundLinks_eq_flatten] at hmem
      rcases mem_foldl_stepEl resolve baseUrl _ [] lo hmem with h | ⟨a, ha, hfa⟩
      · cases h
      · rcases hfa with ⟨h, e1, e2, e3, e4, e5, e6, e7⟩
        exact ⟨by rw [e6]; exact e5, a, ha, h, e1, e2, e3, e4, e5, e6, e7⟩
  · decide

/-! ### C10: determinism up to the clock -/

/-- Blank the clock-dependent field of synthetic error records. -/
def eraseErrDate (r : ArticleRecord) : ArticleRecord :=
  if r.source = str "Error" then { r with publicationDate := [] } else r

theorem eraseErrDate_errorRecord (url now : Str) (e : JsErr) :
    eraseErrDate (errorRecord url now e) = errorRecord url [] e := by
  unfold eraseErrDate errorRecord
  rw [if_pos rfl]

/-- C10 counterexample: two calls with the same (targetUrl, keyword, sortBy),
the same fetch capability and the same date library, differing only in the
clock reading, return different sequences: the synthetic error record carries
new Date().toISOString(). -/
theorem c10_clock_reaches_output :
    scrapeNews c4Env (fun _ => none) (str "2024-01-01T00:00:00.000Z")
        (str "https://example.com/") [] (str "default")
      ≠ scrapeNews c4Env (fun _ => none) (str "2024-01-02T09:30:00.000Z")
        (str "https://example.com/") [] (str "default") := by
  decide

/-- C10 amended: run is a pure function of its inputs, the fetch capability,
the date library and the clock; varying only the clock, the two outputs agree
everywhere except the publicationDate of synthetic error records, which
carries the call-time clock reading. -/
theorem c10_deterministic_up_to_error_timestamp
    (env : Env) (pd : Str → Option Int) (now1 now2 targetUrl keyword sortBy : Str) :
    Except.map (List.map eraseErrDate)
        (scrapeNews env pd now1 targetUrl keyword sortBy)
      = Except.map (List.map eraseErrDate)
          (scrapeNews env pd now2 targetUrl keyword sortBy) := by
  by_cases hu : targetUrl = []
  · subst hu
    rfl
  · rw [scrapeNews_dynamic env pd now1 targetUrl keyword sortBy hu,
      scrapeNews_dynamic env pd now2 targetUrl keyword sortBy hu]
    unfold scrapeDynamicSite
    cases ht : scrapeDynamicSiteTry env targetUrl with
    | ok res => rfl
    | error e =>
      have hkp : kfPred (jsToLower keyword) (errorRecord targetUrl now1 e)
          = kfPred (jsToLower keyword) (errorRecord targetUrl now2 e) := rfl
      unfold keywordFilter
      by_cases hk : keyword = []
      · rw [if_pos hk, if_pos hk, sortStep_singleton, sortStep_singleton]
        simp only [Except.map, List.map, eraseErrDate_errorRecord]
      · rw [if_neg hk, if_neg hk]
        simp only [List.filter_cons, List.filter_nil]
        cases hpred : kfPred (jsToLower keyword) (errorRecord targetUrl now1 e) with
        | false =>
          have hpred2 : kfPred (jsToLower keyword) (errorRecord targetUrl now2 e) = false :=
            hkp ▸ hpred
          rw [if_neg (by simp [hpred]), if_neg (by simp [hpred2]), sortStep_nil]
        | true =>
          have hpred2 : kfPred (jsToLower keyword) (errorRecord targetUrl now2 e) = true :=
            hkp ▸ hpred
          rw [if_pos (by simp [hpred]), if_pos (by simp [hpred2]),
            sortStep_singleton, sortStep_singleton]
          simp only [Except.map, List.map, eraseErrDate_errorRecord]

/-! ### C1: the Hacker News adapter breaks the record invariant -/

def c1Item : HNItem := { titleText := [], titleHref := none, hnuser := [], age := [] }

def c1Env : Env :=
  { parseUrl := fun _ => none, resolve := fun h _ => h,
    resolveHost := fun _ _ => str "news.ycombinator.com",
    dynListing := fun _ => Except.error (JsErr.fetchError []),
    bbcHome := Except.ok [], vergeHome := Except.ok [], cnnHome := Except.ok [],
    hnHome := Except.ok [c1Item],
    adapterArticle := fun _ => Except.error (JsErr.fetchError []) }

/-- C1: the Hacker News adapter stores find(".titleline a").text() with no
fallback and the raw attr("href") as the link, so an .athing row without a
titleline anchor makes run return a record whose title is the empty string
and whose link key is undefined, against the claimed sentinel invariant
(author, date and source do fall back to sentinels). -/
theorem c1_hn_record_empty_title_missing_link :
    scrapeNews c1Env (fun _ => none) [] [] [] (str "default")
      = Except.ok [{ title := [], link := none, author := str "Unknown",
                     publicationDate := str "Unknown", source := str "Unknown" }] := by
  decide
